import Mathlib

/-
Shallow embedding of the soos-sast command-line client (src/src/index.ts and
src/src/utils/constants.ts), restricted to the parts the verified claims are
about: SARIF file discovery (`findSASTFiles`, `findSASTFilePath`), upload
preparation (`getSastFilesAsFormData`), and the error-handling / exit-code
skeleton of `runAnalysis`.

String-manipulating primitives mirror the JavaScript semantics used by the
source (`String.prototype.replace` with a string pattern removes only the
first occurrence; `String.prototype.split` keeps empty segments;
`Array.prototype.join` interleaves the separator).  They are implemented by
structural recursion over `List Char` so that every definition evaluates
inside the kernel.  Paths are modelled with `/` as the platform separator
(`Path.sep`); path normalisation is omitted because no modelled input
contains `.` or `..` segments.
-/

namespace SoosSast

/-- JS `String.prototype.split(sep)` on the character list of a string:
keeps empty segments, `"" ↦ [""]`, `"/a" ↦ ["", "a"]`. -/
def splitCharsOn (c : Char) : List Char → List (List Char)
  | [] => [[]]
  | a :: rest =>
    if a = c then [] :: splitCharsOn c rest
    else
      match splitCharsOn c rest with
      | [] => [[a]]
      | p :: ps => (a :: p) :: ps

/-- `s.split(Path.sep)` with the platform separator `/`. -/
def splitOnSep (s : String) : List String :=
  (splitCharsOn '/' s.data).map String.mk

/-- `parts.join(Path.sep)` with the platform separator `/`. -/
def joinSep (parts : List String) : String :=
  String.intercalate "/" parts

/-- JS `s.replace(pat, "")` with a plain-string pattern: removes the first
occurrence of `pat` (the whole string is unchanged when `pat` does not
occur; an empty `pat` matches at the start and removes nothing). -/
def removeFirstL (pat : List Char) : List Char → List Char
  | [] => []
  | a :: rest =>
    if pat.isPrefixOf (a :: rest) then (a :: rest).drop pat.length
    else a :: removeFirstL pat rest

/-- JS `path.replace(workingDirectory, "")` as used by the upload preparer. -/
def replaceFirstWithEmpty (s pat : String) : String :=
  String.mk (removeFirstL pat.data s.data)

/-- Suffix test on strings (kernel-evaluable form of `RegExp /suf$/.test`). -/
def endsWithSuffix (s suf : String) : Bool :=
  suf.data.isSuffixOf s.data

/-- ASCII-style lower-casing of a whole string, used to model the
`nocase: true` option of `Glob.sync`. -/
def lowerStr (s : String) : String :=
  String.mk (s.data.map Char.toLower)

/-- `Path.basename`: the final segment of a `/`-separated path. -/
def basename (s : String) : String :=
  ((splitOnSep s).getLast?).getD ""

/-- `Path.resolve(rel)` relative to the current working directory `cwd`
(after `process.chdir(sourceCodePath)` the cwd is the source-code root). -/
def pathResolve (cwd rel : String) : String :=
  cwd ++ "/" ++ rel

/-- `Path.join(a, b)`. -/
def pathJoin (a b : String) : String :=
  a ++ "/" ++ b

/-- A directory forest as seen by the filesystem walk.  Cons-style
constructors (`fileCons` adds a file entry, `dirCons` adds a directory entry
with its own sub-forest) keep every recursion over the tree structural, so
concrete trees evaluate in the kernel. -/
inductive FSTree where
  | nil : FSTree
  | fileCons (name : String) (rest : FSTree) : FSTree
  | dirCons (name : String) (sub : FSTree) (rest : FSTree) : FSTree

/-- `CONSTANTS.SAST.FILE_REGEX = /\.sarif\.json$/` from
src/src/utils/constants.ts: the case-SENSITIVE suffix test used by the
single-file variant `findSASTFilePath`. -/
def sarifRegexTest (s : String) : Bool :=
  endsWithSuffix s ".sarif.json"

/-- Modelled from the spec: `SOOS_SAST_CONSTANTS.FilePattern`, imported by
index.ts from "./constants", is not under src/.  Per the spec the inclusion
glob is a fixed recursive pattern identifying SARIF result files (the
constants file that is under src/ gives the regex `\.sarif\.json$`), matched
case-insensitively because the source passes `nocase: true` to `Glob.sync`.
A name matches when its lower-cased form ends with `.sarif.json`. -/
def matchesSarifNocase (name : String) : Bool :=
  endsWithSuffix (lowerStr name) ".sarif.json"

/-- `Glob.sync(pattern, { nocase: true })` over a directory forest: relative
paths (in traversal order) of all files, at any depth, whose name matches
the inclusion pattern case-insensitively.  No `ignore` option is passed by
the source, so nothing prunes the walk. -/
def globEntries : FSTree → List String
  | FSTree.nil => []
  | FSTree.fileCons n rest =>
    (if matchesSarifNocase n then [n] else []) ++ globEntries rest
  | FSTree.dirCons d sub rest =>
    (globEntries sub).map (fun p => d ++ "/" ++ p) ++ globEntries rest

/-- `fs.readdir`: the names of the immediate entries of a directory
(files and subdirectories alike), with no recursion. -/
def readdirNames : FSTree → List String
  | FSTree.nil => []
  | FSTree.fileCons n rest => n :: readdirNames rest
  | FSTree.dirCons n _ rest => n :: readdirNames rest

/-- The fields of `SOOSSASTAnalysisArgs` that the verified components read.
The remaining CLI fields (credentials, project metadata, log level, ...) are
opaque plumbing that never reaches discovery or upload preparation. -/
structure SOOSSASTAnalysisArgs where
  sourceCodePath : String
  filesToExclude : List String
  directoriesToExclude : List String

/-- `ISastFile` from index.ts. -/
structure ISastFile where
  name : String
  path : String
deriving DecidableEq

/-- Process-level mutable state touched by the run: the current working
directory (`process.chdir` / `process.cwd`). -/
structure ProcState where
  cwd : String
deriving DecidableEq

/-- `findSASTFiles` (index.ts lines 365-390): chdir to the source-code root,
glob for SARIF files case-insensitively, resolve every match to an absolute
path, fail with "No SAST files found." when there are none, and otherwise
return one `ISastFile` (basename + absolute path) per match.  The
`filesToExclude` / `directoriesToExclude` arguments are carried by `args`
but never consulted, exactly as in the source. -/
def findSASTFiles (args : SOOSSASTAnalysisArgs) (fs : FSTree) (st : ProcState) :
    ProcState × Except String (List ISastFile) :=
  let st1 : ProcState := { st with cwd := args.sourceCodePath }
  let files := globEntries fs
  let absolutePathFiles := files.map (fun x => pathResolve st1.cwd x)
  if absolutePathFiles.length > 0 then
    (st1, Except.ok (absolutePathFiles.map (fun f => ISastFile.mk (basename f) f)))
  else
    (st1, Except.error "No SAST files found.")

/-- One value appended to the multipart form: either a streaming read of a
file's contents or a plain text field. -/
inductive FormValue where
  | fileStream (path : String) : FormValue
  | text (s : String) : FormValue
deriving DecidableEq

/-- The `parentFolder` computation of `getSastFilesAsFormData`:
`path.replace(workingDirectory, "").split(Path.sep)`, then (when at least
two parts remain) all parts but the last re-joined with the separator,
otherwise the empty string. -/
def parentFolderOf (workingDirectory path : String) : String :=
  let fileParts := splitOnSep (replaceFirstWithEmpty path workingDirectory)
  if fileParts.length ≥ 2 then joinSep (fileParts.take (fileParts.length - 1))
  else ""

/-- The numeric suffix appended to the field names of the part at zero-based
`index`: empty for the first file, the decimal index for the rest. -/
def suffixFor (index : Nat) : String :=
  if index > 0 then toString index else ""

/-- The two parts appended for the file at zero-based index `p.1`:
`file<suffix>` carrying the read stream and `parentFolder<suffix>` carrying
the computed parent folder. -/
def formPartsFor (workingDirectory : String) (p : Nat × ISastFile) :
    List (String × FormValue) :=
  [("file" ++ suffixFor p.1, FormValue.fileStream p.2.path),
   ("parentFolder" ++ suffixFor p.1,
     FormValue.text (parentFolderOf workingDirectory p.2.path))]

/-- `getSastFilesAsFormData` (index.ts lines 344-363): a `reduce` over the
discovered files that appends, per file, its content part and its
parent-folder part to the accumulated form data. -/
def getSastFilesAsFormData (args : SOOSSASTAnalysisArgs)
    (sastFiles : List ISastFile) : List (String × FormValue) :=
  sastFiles.enum.foldl
    (fun formDataAcc p => formDataAcc ++ formPartsFor args.sourceCodePath p) []

/-- What `statSync(sourceCodePath)` reveals to `findSASTFilePath`: either a
directory (whose immediate entries `readdir` will list) or a plain file. -/
inductive PathTarget where
  | dir (entries : FSTree) : PathTarget
  | file : PathTarget

/-- `findSASTFilePath` (index.ts lines 150-169, the single-file variant):
for a directory, `readdir` the immediate entries and return the first whose
name passes the SARIF regex, joined to the directory path, or fail; for a
plain file, return the path itself if it passes the regex, or fail. -/
def findSASTFilePath (sourceCodePath : String) (target : PathTarget) :
    Except String String :=
  match target with
  | PathTarget.dir entries =>
    match (readdirNames entries).find? (fun file => sarifRegexTest file) with
    | some sastFile => Except.ok (pathJoin sourceCodePath sastFile)
    | none => Except.error "No SAST file found in the directory."
  | PathTarget.file =>
    if sarifRegexTest sourceCodePath then Except.ok sourceCodePath
    else Except.error "The file does not match the required SAST pattern."

/-- The identifiers produced by a successful `setupScan` call. -/
structure ISetupScanResult where
  projectHash : String
  branchHash : String
  analysisId : String
deriving DecidableEq

/-- The behaviour of the remote collaborator during one run: whether
`setupScan` throws or returns identifiers, and whether
`uploadScanToolResult` succeeds. -/
structure RemoteEnv where
  setupScanResult : Except Unit ISetupScanResult
  uploadSucceeds : Bool

/-- The scan status reported by the error path of `runAnalysis`
(`ScanStatus.Error` is the only status value the source ever sends). -/
inductive ScanStatusM where
  | error : ScanStatusM
deriving DecidableEq

/-- A remote API call observable in a run. -/
inductive RemoteCall where
  | setupScan : RemoteCall
  | uploadScanToolResult : RemoteCall
  | updateScanStatus (status : ScanStatusM) : RemoteCall
deriving DecidableEq

/-- Observable outcome of a run: the remote calls in order, and the process
exit code (0 = the process ran to completion, 1 = `exit(1)` was reached). -/
structure RunOutcome where
  calls : List RemoteCall
  exitCode : Nat
deriving DecidableEq

/-- JS truthiness of a string: every string except `""` is truthy. -/
def truthyStr (s : String) : Bool :=
  if s = "" then false else true

/-- The body of `runAnalysis` after discovery (index.ts lines 277-341): set
up the scan, record the identifiers, upload the form data, and on any
thrown error run the catch block, which sends a best-effort
`updateScanStatus(Error)` only when `projectHash && branchHash && analysisId`
are all truthy, then calls `exit(1)`.  A discovery error propagates out of
`runAnalysis` to `createAndRun`, whose catch logs and calls `exit(1)` with
no remote call made. -/
def runAnalysisSteps (env : RemoteEnv)
    (found : Except String (List ISastFile)) : RunOutcome :=
  match found with
  | Except.error _ => RunOutcome.mk [] 1
  | Except.ok _sastFiles =>
    match env.setupScanResult with
    | Except.error _ => RunOutcome.mk [RemoteCall.setupScan] 1
    | Except.ok result =>
      if env.uploadSucceeds then
        RunOutcome.mk [RemoteCall.setupScan, RemoteCall.uploadScanToolResult] 0
      else
        if truthyStr result.projectHash && truthyStr result.branchHash
            && truthyStr result.analysisId then
          RunOutcome.mk
            [RemoteCall.setupScan, RemoteCall.uploadScanToolResult,
             RemoteCall.updateScanStatus ScanStatusM.error] 1
        else
          RunOutcome.mk [RemoteCall.setupScan, RemoteCall.uploadScanToolResult] 1

/-- `runAnalysis` (index.ts lines 266-342): discovery first (this is the
only place the process state changes), then the remote pipeline. -/
def runAnalysis (args : SOOSSASTAnalysisArgs) (fs : FSTree) (env : RemoteEnv)
    (st : ProcState) : ProcState × RunOutcome :=
  let r := findSASTFiles args fs st
  (r.1, runAnalysisSteps env r.2)

/-- Scan creation "produced the identifiers" during the run recorded by
`out`: `setupScan` was actually called and returned a result whose three
hashes are all truthy, which is exactly the guard of the catch block. -/
def scanIdsProduced (env : RemoteEnv) (out : RunOutcome) : Prop :=
  RemoteCall.setupScan ∈ out.calls ∧
    ∃ ids, env.setupScanResult = Except.ok ids ∧
      (truthyStr ids.projectHash && truthyStr ids.branchHash
        && truthyStr ids.analysisId) = true

/-- Modelled from the spec: the scan statuses observable while polling.  The
polling loop, the `--onFailure` policy and the status-to-exit-code mapping
are documented in the README under src/ (`--onFailure`: fail_the_build |
continue_on_failure) and described by the spec, but their implementation is
not under src/. -/
inductive SpecScanStatus where
  | incomplete : SpecScanStatus
  | complete : SpecScanStatus
  | failed : SpecScanStatus
  | error : SpecScanStatus
deriving DecidableEq

/-- Modelled from the spec: the on-failure policy selected by `--onFailure`. -/
inductive OnFailurePolicy where
  | failTheBuild : OnFailurePolicy
  | continueOnFailure : OnFailurePolicy
deriving DecidableEq

/-- Modelled from the spec: a status is terminal when it is anything other
than `Incomplete`; polling stops at the first terminal status. -/
def isTerminalStatus : SpecScanStatus → Bool
  | SpecScanStatus.incomplete => false
  | SpecScanStatus.complete => true
  | SpecScanStatus.failed => true
  | SpecScanStatus.error => true

/-- Modelled from the spec: the final scan status of a remote status
sequence is the first terminal status observed while polling (`none` when
polling times out without reaching one). -/
def specFinalStatus (seq : List SpecScanStatus) : Option SpecScanStatus :=
  seq.find? isTerminalStatus

/-- Modelled from the spec: "Exit code is derived from the final scan status
crossed with the on-failure policy: a clean result always exits 0; a
failed/erroring analysis exits non-zero only when the policy is
fail_the_build."  A timed-out (still incomplete) terminal state is likewise
subject to the policy. -/
def specExitCode : SpecScanStatus → OnFailurePolicy → Nat
  | SpecScanStatus.complete, _ => 0
  | SpecScanStatus.incomplete, OnFailurePolicy.failTheBuild => 1
  | SpecScanStatus.incomplete, OnFailurePolicy.continueOnFailure => 0
  | SpecScanStatus.failed, OnFailurePolicy.failTheBuild => 1
  | SpecScanStatus.failed, OnFailurePolicy.continueOnFailure => 0
  | SpecScanStatus.error, OnFailurePolicy.failTheBuild => 1
  | SpecScanStatus.error, OnFailurePolicy.continueOnFailure => 0

/-- A file named `name` sits under the directory chain `ds` inside the
forest: the path witness used to state which files discovery must find. -/
inductive HasFile : FSTree → List String → String → Prop where
  | fileHere (name : String) (rest : FSTree) :
      HasFile (FSTree.fileCons name rest) [] name
  | skipFile (n : String) {t : FSTree} {ds : List String} {name : String} :
      HasFile t ds name → HasFile (FSTree.fileCons n t) ds name
  | skipDir (d : String) (sub : FSTree) {t : FSTree} {ds : List String}
      {name : String} :
      HasFile t ds name → HasFile (FSTree.dirCons d sub t) ds name
  | intoDir (d : String) {sub : FSTree} {t : FSTree} {ds : List String}
      {name : String} :
      HasFile sub ds name → HasFile (FSTree.dirCons d sub t) (d :: ds) name

/-- The relative path of a file under the directory chain `ds`, built the
same way the glob walk builds its results. -/
def joinPath : List String → String → String
  | [], name => name
  | d :: ds, name => d ++ "/" ++ joinPath ds name

/-- The number of files in a discovery result (0 for the error case). -/
def resultFileCount : Except String (List ISastFile) → Nat
  | Except.ok l => l.length
  | Except.error _ => 0

/-- The truncation behaviour the spec ascribes to discovery, as a
proposition about the embedded `findSASTFiles`: some positive configured
maximum `K` exists such that every root with more than `K` surviving
matches yields a result with exactly `K` files.  (The source's return type
`Array<ISastFile>` carries no `truncated` flag at all, so only this
observable part of the claim is statable.) -/
def c1TruncationClaim : Prop :=
  ∃ K : Nat, 0 < K ∧
    ∀ (args : SOOSSASTAnalysisArgs) (fs : FSTree) (st : ProcState),
      K < (globEntries fs).length →
        resultFileCount (findSASTFiles args fs st).2 = K

/-- A forest with `n + 1` matching files at pairwise distinct paths:
one `x.sarif.json` at each nesting depth `0, …, n` of a chain of `d`
directories. -/
def nestFs : Nat → FSTree
  | 0 => FSTree.fileCons "x.sarif.json" FSTree.nil
  | n + 1 =>
    FSTree.fileCons "x.sarif.json"
      (FSTree.dirCons "d" (nestFs n) FSTree.nil)

/-- Recursive description of the form data built over an already-enumerated
file list: the two parts of each file, in order.  `getSastFilesAsFormData`
is proved equal to this below. -/
def formEntriesFrom (workingDirectory : String) :
    List (Nat × ISastFile) → List (String × FormValue)
  | [] => []
  | p :: rest =>
    formPartsFor workingDirectory p ++ formEntriesFrom workingDirectory rest

/-! ## Helper lemmas -/

/-- Discovery always leaves the process working directory at the
source-code root (`process.chdir` runs before anything else). -/
lemma findSASTFiles_fst (args : SOOSSASTAnalysisArgs) (fs : FSTree)
    (st : ProcState) :
    (findSASTFiles args fs st).1 = ProcState.mk args.sourceCodePath := by
  unfold findSASTFiles
  dsimp only
  split <;> rfl

/-- On a root with at least one match, discovery succeeds with all matches
resolved and wrapped, in matched order. -/
lemma findSASTFiles_ok_of_pos (args : SOOSSASTAnalysisArgs) (fs : FSTree)
    (st : ProcState) (h : 0 < (globEntries fs).length) :
    (findSASTFiles args fs st).2 =
      Except.ok
        (((globEntries fs).map (fun x => pathResolve args.sourceCodePath x)).map
          (fun f => ISastFile.mk (basename f) f)) := by
  unfold findSASTFiles
  rw [if_pos (by simpa using h)]

/-- On a root with no match, discovery fails with the no-input error. -/
lemma findSASTFiles_err_of_nil (args : SOOSSASTAnalysisArgs) (fs : FSTree)
    (st : ProcState) (h : globEntries fs = []) :
    (findSASTFiles args fs st).2 = Except.error "No SAST files found." := by
  unfold findSASTFiles
  rw [if_neg (by simp [h])]

/-- A successful discovery returns one file per surviving match. -/
lemma resultFileCount_eq (args : SOOSSASTAnalysisArgs) (fs : FSTree)
    (st : ProcState) (h : 0 < (globEntries fs).length) :
    resultFileCount (findSASTFiles args fs st).2 = (globEntries fs).length := by
  rw [findSASTFiles_ok_of_pos args fs st h]
  simp [resultFileCount]

/-- The nested example forest has exactly `n + 1` matches. -/
lemma globEntries_nestFs_length (n : Nat) :
    (globEntries (nestFs n)).length = n + 1 := by
  induction n with
  | zero => rfl
  | succ n ih =>
    have hm : matchesSarifNocase "x.sarif.json" = true := by decide
    simp [nestFs, globEntries, hm, ih]

/-! ## Claims -/

/-- Claim C1, counterexample.  The spec asserts a configured maximum `K`
with truncation of the surviving matches to the first `K`.  The source's
`findSASTFiles` has no maximum and no `truncated` flag: no positive bound
`K` exists for which roots with more than `K` matches yield exactly `K`
files, because the nested forest `nestFs K` has `K + 1` matches and
discovery returns all of them. -/
theorem findSASTFiles_truncation_claim_false : ¬ c1TruncationClaim := by
  intro hcl
  obtain ⟨K, hK, hall⟩ := hcl
  have hlen := globEntries_nestFs_length K
  have hlt : K < (globEntries (nestFs K)).length := by omega
  have h1 := hall (SOOSSASTAnalysisArgs.mk "root" [] []) (nestFs K)
    (ProcState.mk "/") hlt
  have h2 := resultFileCount_eq (SOOSSASTAnalysisArgs.mk "root" [] [])
    (nestFs K) (ProcState.mk "/") (by omega)
  omega

/-- Claim C1, amended.  `findSASTFiles` never truncates: for every root
with at least one surviving match it returns all matches, in matched order
(each resolved to an absolute path and paired with its basename), and the
result count equals the match count; there is no configured maximum and no
`truncated` flag in the return type, and no files are skipped. -/
theorem findSASTFiles_returns_all_matches (args : SOOSSASTAnalysisArgs)
    (fs : FSTree) (st : ProcState) (h : 0 < (globEntries fs).length) :
    (findSASTFiles args fs st).2 =
      Except.ok
        (((globEntries fs).map (fun x => pathResolve args.sourceCodePath x)).map
          (fun f => ISastFile.mk (basename f) f))
    ∧ resultFileCount (findSASTFiles args fs st).2 = (globEntries fs).length :=
  ⟨findSASTFiles_ok_of_pos args fs st h, resultFileCount_eq args fs st h⟩

/-- Claim C1, witness for the amended theorem at a two-file root. -/
theorem findSASTFiles_returns_all_matches_witness :
    0 < (globEntries (FSTree.fileCons "a.sarif.json"
        (FSTree.fileCons "b.sarif.json" FSTree.nil))).length
    ∧ ((findSASTFiles (SOOSSASTAnalysisArgs.mk "root" [] [])
          (FSTree.fileCons "a.sarif.json"
            (FSTree.fileCons "b.sarif.json" FSTree.nil))
          (ProcState.mk "/")).2 =
        Except.ok
          [ISastFile.mk "a.sarif.json" "root/a.sarif.json",
           ISastFile.mk "b.sarif.json" "root/b.sarif.json"]
      ∧ resultFileCount (findSASTFiles (SOOSSASTAnalysisArgs.mk "root" [] [])
          (FSTree.fileCons "a.sarif.json"
            (FSTree.fileCons "b.sarif.json" FSTree.nil))
          (ProcState.mk "/")).2 = 2) :=
  ⟨by decide,
    findSASTFiles_returns_all_matches (SOOSSASTAnalysisArgs.mk "root" [] [])
      (FSTree.fileCons "a.sarif.json" (FSTree.fileCons "b.sarif.json" FSTree.nil))
      (ProcState.mk "/") (by decide)⟩

/-- Claim C2.  At a root holding `a.sarif.json` and `skip.sarif.json` with
`filesToExclude = ["**/skip.sarif.json"]` (so `n = 2` inclusion matches of
which `m = 1` also matches a file-exclusion pattern), discovery returns
both files — 2, not `n − m = 1` — because `findSASTFiles` never reads the
exclusion arguments: its result is invariant under arbitrary changes to
`filesToExclude` and `directoriesToExclude`. -/
theorem findSASTFiles_ignores_exclusion_patterns :
    ((findSASTFiles
        (SOOSSASTAnalysisArgs.mk "root" ["**/skip.sarif.json"] [])
        (FSTree.fileCons "a.sarif.json"
          (FSTree.fileCons "skip.sarif.json" FSTree.nil))
        (ProcState.mk "/")).2 =
      Except.ok
        [ISastFile.mk "a.sarif.json" "root/a.sarif.json",
         ISastFile.mk "skip.sarif.json" "root/skip.sarif.json"])
    ∧ ∀ (scp : String) (ex ex2 dirs dirs2 : List String) (fs : FSTree)
        (st : ProcState),
        findSASTFiles (SOOSSASTAnalysisArgs.mk scp ex dirs) fs st =
          findSASTFiles (SOOSSASTAnalysisArgs.mk scp ex2 dirs2) fs st :=
  ⟨rfl, fun _ _ _ _ _ _ _ => rfl⟩

/-- Claim C3, counterexample.  For the spec's own two-file instance with
declared root `root`, the preparer computes `parentFolder` values `"/a"`
and `"/b/c"` — not `"a"` and `"b/c"`: `replace` drops only the root prefix,
so the stripped path starts with the separator, `split` keeps that empty
first segment, and `join` re-emits it as a leading separator. -/
theorem parentFolder_claim_false :
    getSastFilesAsFormData (SOOSSASTAnalysisArgs.mk "root" [] [])
        [ISastFile.mk "x.sarif.json" "root/a/x.sarif.json",
         ISastFile.mk "y.sarif.json" "root/b/c/y.sarif.json"] =
      [("file", FormValue.fileStream "root/a/x.sarif.json"),
       ("parentFolder", FormValue.text "/a"),
       ("file1", FormValue.fileStream "root/b/c/y.sarif.json"),
       ("parentFolder1", FormValue.text "/b/c")]
    ∧ ("/a" : String) ≠ "a" ∧ ("/b/c" : String) ≠ "b/c" :=
  ⟨rfl, by decide, by decide⟩

/-- Claim C3, amended.  For the two files `root/a/x.sarif.json` and
`root/b/c/y.sarif.json` with declared root `root`, the computed
`parentFolder` values are exactly `"/a"` and `"/b/c"` (the leading
separator left by stripping the root prefix is kept); and for every file
whose stripped path has fewer than two segments, `parentFolder` is the
empty string. -/
theorem parentFolder_amended :
    (parentFolderOf "root" "root/a/x.sarif.json" = "/a"
      ∧ parentFolderOf "root" "root/b/c/y.sarif.json" = "/b/c")
    ∧ ∀ (workingDirectory p : String),
        (splitOnSep (replaceFirstWithEmpty p workingDirectory)).length < 2 →
        parentFolderOf workingDirectory p = "" := by
  refine ⟨⟨rfl, rfl⟩, ?_⟩
  intro wd p h
  unfold parentFolderOf
  rw [if_neg (by omega)]

/-- Claim C3, witness for the amended theorem: a file directly in the root
(with a separator-terminated root, the stripped path is a single segment). -/
theorem parentFolder_amended_witness :
    (splitOnSep (replaceFirstWithEmpty "root/x.sarif.json" "root/")).length < 2
    ∧ parentFolderOf "root/" "root/x.sarif.json" = "" :=
  ⟨by decide, parentFolder_amended.2 "root/" "root/x.sarif.json" (by decide)⟩

/-- Claim C4.  Modelled from the spec (the polling / exit-code logic is not
under src/): the process exit code is a function of the final scan status
crossed with the on-failure policy — a clean (`Complete`) result exits 0
under every policy, and a `Failed` or `Error` final status yields a
non-zero exit code exactly when the policy is `fail_the_build`
(`continue_on_failure` exits 0 for the same status).  The status sequence
`[Incomplete, Incomplete, Complete]` resolves to final status `Complete`
and the same sequence ending in `Failed` to `Failed`. -/
theorem exit_code_status_policy (p : OnFailurePolicy) (s : SpecScanStatus)
    (hs : s = SpecScanStatus.failed ∨ s = SpecScanStatus.error) :
    specExitCode SpecScanStatus.complete p = 0
    ∧ (specExitCode s p ≠ 0 ↔ p = OnFailurePolicy.failTheBuild)
    ∧ specFinalStatus
        [SpecScanStatus.incomplete, SpecScanStatus.incomplete,
         SpecScanStatus.complete] = some SpecScanStatus.complete
    ∧ specFinalStatus
        [SpecScanStatus.incomplete, SpecScanStatus.incomplete,
         SpecScanStatus.failed] = some SpecScanStatus.failed := by
  rcases hs with h | h <;> subst h <;> cases p <;>
    exact ⟨rfl, by decide, rfl, rfl⟩

/-- Claim C4, witness: the failed status under `continue_on_failure`. -/
theorem exit_code_status_policy_witness :
    specExitCode SpecScanStatus.complete OnFailurePolicy.continueOnFailure = 0
    ∧ (specExitCode SpecScanStatus.failed OnFailurePolicy.continueOnFailure ≠ 0
        ↔ OnFailurePolicy.continueOnFailure = OnFailurePolicy.failTheBuild)
    ∧ specFinalStatus
        [SpecScanStatus.incomplete, SpecScanStatus.incomplete,
         SpecScanStatus.complete] = some SpecScanStatus.complete
    ∧ specFinalStatus
        [SpecScanStatus.incomplete, SpecScanStatus.incomplete,
         SpecScanStatus.failed] = some SpecScanStatus.failed :=
  exit_code_status_policy OnFailurePolicy.continueOnFailure
    SpecScanStatus.failed (Or.inl rfl)

/-- Claim C5.  A root with zero qualifying files makes discovery fail with
the "no input" error and the run terminates (exit code 1) with no remote
call ever made; and whenever discovery succeeds, the returned file list is
non-empty — an empty result is a terminal error, never an empty success. -/
theorem no_input_terminal_before_remote (args : SOOSSASTAnalysisArgs)
    (fs : FSTree) (env : RemoteEnv) (st : ProcState) :
    (globEntries fs = [] →
      (findSASTFiles args fs st).2 = Except.error "No SAST files found."
      ∧ (runAnalysis args fs env st).2.calls = []
      ∧ (runAnalysis args fs env st).2.exitCode = 1)
    ∧ ∀ l, (findSASTFiles args fs st).2 = Except.ok l → l ≠ [] := by
  constructor
  · intro h
    have herr := findSASTFiles_err_of_nil args fs st h
    have hrun : (runAnalysis args fs env st).2 =
        runAnalysisSteps env (findSASTFiles args fs st).2 := rfl
    rw [herr] at hrun
    exact ⟨herr, by rw [hrun]; rfl, by rw [hrun]; rfl⟩
  · intro l hl
    by_cases hpos : 0 < (globEntries fs).length
    · have hok := findSASTFiles_ok_of_pos args fs st hpos
      rw [hok] at hl
      have hX := Except.ok.inj hl
      intro hnil
      rw [hnil] at hX
      have hlen := congrArg List.length hX
      simp only [List.length_map, List.length_nil] at hlen
      omega
    · have hz : (globEntries fs).length = 0 := by omega
      rw [findSASTFiles_err_of_nil args fs st
        (List.eq_nil_of_length_eq_zero hz)] at hl
      exact absurd hl (by simp)

/-- Claim C5, witness at an empty root. -/
theorem no_input_terminal_before_remote_witness :
    (findSASTFiles (SOOSSASTAnalysisArgs.mk "root" [] []) FSTree.nil
        (ProcState.mk "/")).2 = Except.error "No SAST files found."
    ∧ (runAnalysis (SOOSSASTAnalysisArgs.mk "root" [] []) FSTree.nil
        (RemoteEnv.mk (Except.ok (ISetupScanResult.mk "p" "b" "a")) true)
        (ProcState.mk "/")).2.calls = []
    ∧ (runAnalysis (SOOSSASTAnalysisArgs.mk "root" [] []) FSTree.nil
        (RemoteEnv.mk (Except.ok (ISetupScanResult.mk "p" "b" "a")) true)
        (ProcState.mk "/")).2.exitCode = 1 :=
  (no_input_terminal_before_remote (SOOSSASTAnalysisArgs.mk "root" [] [])
    FSTree.nil
    (RemoteEnv.mk (Except.ok (ISetupScanResult.mk "p" "b" "a")) true)
    (ProcState.mk "/")).1 rfl

/-- Claim C9.  `findSASTFiles` calls `process.chdir(sourceCodePath)` and
nothing in the run ever restores the previous working directory: after
discovery — and after the whole of `runAnalysis`, on every control path —
the process cwd is `sourceCodePath` (whatever it was before), so every
subsequent relative-path resolution resolves against `sourceCodePath`. -/
theorem chdir_is_permanent (args : SOOSSASTAnalysisArgs) (fs : FSTree)
    (env : RemoteEnv) (st : ProcState) (rel : String) :
    ((findSASTFiles args fs st).1).cwd = args.sourceCodePath
    ∧ ((runAnalysis args fs env st).1).cwd = args.sourceCodePath
    ∧ pathResolve ((runAnalysis args fs env st).1).cwd rel =
        args.sourceCodePath ++ "/" ++ rel := by
  have hfix : (runAnalysis args fs env st).1 = (findSASTFiles args fs st).1 :=
    rfl
  rw [hfix, findSASTFiles_fst]
  exact ⟨rfl, rfl, rfl⟩

/-- The `reduce` accumulator of `getSastFilesAsFormData` unfolds to a plain
recursion over the enumerated file list. -/
lemma foldl_append_formParts (wd : String) (l : List (Nat × ISastFile)) :
    ∀ init : List (String × FormValue),
      l.foldl (fun acc p => acc ++ formPartsFor wd p) init =
        init ++ formEntriesFrom wd l := by
  induction l with
  | nil => intro init; simp [formEntriesFrom]
  | cons p rest ih =>
    intro init
    simp only [List.foldl_cons, formEntriesFrom, ih, List.append_assoc]

/-- `getSastFilesAsFormData` equals the recursive description of the form
entries over the enumerated file list. -/
lemma getSastFilesAsFormData_eq (args : SOOSSASTAnalysisArgs)
    (files : List ISastFile) :
    getSastFilesAsFormData args files =
      formEntriesFrom args.sourceCodePath files.enum := by
  unfold getSastFilesAsFormData
  rw [foldl_append_formParts]
  rfl

/-- The parts of the file at position `i` of a list enumerated from `k`
occupy entries `2 i` and `2 i + 1` of the form data and carry the suffix of
index `k + i`. -/
lemma formEntriesFrom_get (wd : String) :
    ∀ (files : List ISastFile) (k i : Nat) (f : ISastFile),
      files.get? i = some f →
      (formEntriesFrom wd (List.enumFrom k files)).get? (2 * i) =
          some ("file" ++ suffixFor (k + i), FormValue.fileStream f.path)
      ∧ (formEntriesFrom wd (List.enumFrom k files)).get? (2 * i + 1) =
          some ("parentFolder" ++ suffixFor (k + i),
            FormValue.text (parentFolderOf wd f.path)) := by
  intro files
  induction files with
  | nil => intro k i f h; simp at h
  | cons f0 rest ih =>
    intro k i f h
    have hexp : formEntriesFrom wd (List.enumFrom k (f0 :: rest)) =
        ("file" ++ suffixFor k, FormValue.fileStream f0.path) ::
          ("parentFolder" ++ suffixFor k,
            FormValue.text (parentFolderOf wd f0.path)) ::
          formEntriesFrom wd (List.enumFrom (k + 1) rest) := rfl
    cases i with
    | zero =>
      have h0 : f0 = f := by simpa using h
      subst h0
      exact ⟨rfl, rfl⟩
    | succ j =>
      have h' : rest.get? j = some f := by simpa using h
      have hrec := ih (k + 1) j f h'
      rw [hexp]
      constructor
      · rw [show 2 * (j + 1) = 2 * j + 1 + 1 by ring,
          show k + (j + 1) = k + 1 + j by omega]
        exact hrec.1
      · rw [show 2 * (j + 1) + 1 = 2 * j + 1 + 1 + 1 by ring,
          show k + (j + 1) = k + 1 + j by omega]
        exact hrec.2

/-- Claim C6.  In the multipart payload, the file at zero-based index `i`
contributes the parts at positions `2 i` and `2 i + 1`, whose field names
are `file` and `parentFolder` followed by the suffix of index `i`: empty
for the first file and the decimal index for every later file. -/
theorem formData_field_name_suffixes (args : SOOSSASTAnalysisArgs)
    (files : List ISastFile) (i : Nat) (f : ISastFile)
    (h : files.get? i = some f) :
    (getSastFilesAsFormData args files).get? (2 * i) =
        some ("file" ++ suffixFor i, FormValue.fileStream f.path)
    ∧ (getSastFilesAsFormData args files).get? (2 * i + 1) =
        some ("parentFolder" ++ suffixFor i,
          FormValue.text (parentFolderOf args.sourceCodePath f.path))
    ∧ suffixFor 0 = "" ∧ ∀ j : Nat, 0 < j → suffixFor j = toString j := by
  have hmain := formEntriesFrom_get args.sourceCodePath files 0 i f h
  simp only [Nat.zero_add] at hmain
  rw [getSastFilesAsFormData_eq]
  refine ⟨hmain.1, hmain.2, rfl, ?_⟩
  intro j hj
  simp [suffixFor, hj]

/-- Claim C6, witness: the second of two files carries suffix `1`, so its
field names are `file1` and `parentFolder1`. -/
theorem formData_field_name_suffixes_witness :
    ((getSastFilesAsFormData (SOOSSASTAnalysisArgs.mk "root" [] [])
        [ISastFile.mk "x.sarif.json" "root/a/x.sarif.json",
         ISastFile.mk "y.sarif.json" "root/b/c/y.sarif.json"]).get? (2 * 1) =
        some ("file" ++ suffixFor 1,
          FormValue.fileStream "root/b/c/y.sarif.json")
      ∧ (getSastFilesAsFormData (SOOSSASTAnalysisArgs.mk "root" [] [])
          [ISastFile.mk "x.sarif.json" "root/a/x.sarif.json",
           ISastFile.mk "y.sarif.json" "root/b/c/y.sarif.json"]).get?
            (2 * 1 + 1) =
        some ("parentFolder" ++ suffixFor 1,
          FormValue.text (parentFolderOf "root" "root/b/c/y.sarif.json"))
      ∧ suffixFor 0 = "" ∧ ∀ j : Nat, 0 < j → suffixFor j = toString j)
    ∧ ("file" ++ suffixFor 1, "parentFolder" ++ suffixFor 1) =
        ("file1", "parentFolder1") :=
  ⟨formData_field_name_suffixes (SOOSSASTAnalysisArgs.mk "root" [] [])
      [ISastFile.mk "x.sarif.json" "root/a/x.sarif.json",
       ISastFile.mk "y.sarif.json" "root/b/c/y.sarif.json"] 1
      (ISastFile.mk "y.sarif.json" "root/b/c/y.sarif.json") rfl,
    by decide⟩

/-- Claim C7.  Whenever the run fails (non-zero exit code), the best-effort
`updateScanStatus(Error)` call is attempted exactly when scan creation had
already produced the project, branch and analysis identifiers (the guard
`projectHash && branchHash && analysisId` of the catch block: `setupScan`
was reached and returned three truthy identifiers); when any identifier is
missing, no status update is attempted. -/
theorem update_status_iff_ids_produced (args : SOOSSASTAnalysisArgs)
    (fs : FSTree) (env : RemoteEnv) (st : ProcState)
    (h : (runAnalysis args fs env st).2.exitCode ≠ 0) :
    RemoteCall.updateScanStatus ScanStatusM.error ∈
        (runAnalysis args fs env st).2.calls
      ↔ scanIdsProduced env (runAnalysis args fs env st).2 := by
  have hrun : (runAnalysis args fs env st).2 =
      runAnalysisSteps env (findSASTFiles args fs st).2 := rfl
  rw [hrun] at h ⊢
  rcases hf : (findSASTFiles args fs st).2 with e | l
  · simp [runAnalysisSteps, scanIdsProduced]
  · rcases hs : env.setupScanResult with u | ids
    · simp [runAnalysisSteps, hs, scanIdsProduced]
    · cases hu : env.uploadSucceeds
      · cases ht : (truthyStr ids.projectHash && truthyStr ids.branchHash
            && truthyStr ids.analysisId)
        · simp only [runAnalysisSteps, hs, hu, ht, scanIdsProduced]
          simp
          intro h1 h2
          simpa [h1, h2] using ht
        · simp only [runAnalysisSteps, hs, hu, ht, scanIdsProduced]
          simp
          simpa using ht
      · simp [runAnalysisSteps, hf, hs, hu] at h

/-- Claim C7, witness: a run whose upload fails after scan creation
produced three truthy identifiers. -/
theorem update_status_iff_ids_produced_witness :
    RemoteCall.updateScanStatus ScanStatusM.error ∈
        (runAnalysis (SOOSSASTAnalysisArgs.mk "root" [] [])
          (FSTree.fileCons "a.sarif.json" FSTree.nil)
          (RemoteEnv.mk (Except.ok (ISetupScanResult.mk "p" "b" "a")) false)
          (ProcState.mk "/")).2.calls
      ↔ scanIdsProduced
          (RemoteEnv.mk (Except.ok (ISetupScanResult.mk "p" "b" "a")) false)
          (runAnalysis (SOOSSASTAnalysisArgs.mk "root" [] [])
            (FSTree.fileCons "a.sarif.json" FSTree.nil)
            (RemoteEnv.mk (Except.ok (ISetupScanResult.mk "p" "b" "a")) false)
            (ProcState.mk "/")).2 :=
  update_status_iff_ids_produced (SOOSSASTAnalysisArgs.mk "root" [] [])
    (FSTree.fileCons "a.sarif.json" FSTree.nil)
    (RemoteEnv.mk (Except.ok (ISetupScanResult.mk "p" "b" "a")) false)
    (ProcState.mk "/") (by decide)

/-- Every file that sits in the forest under some directory chain and whose
name matches the inclusion pattern case-insensitively appears in the glob
walk, at the corresponding relative path. -/
lemma mem_glob_of_hasFile {t : FSTree} {ds : List String} {name : String}
    (h : HasFile t ds name) :
    matchesSarifNocase name = true → joinPath ds name ∈ globEntries t := by
  induction h with
  | fileHere nm rest =>
    intro hm
    simp [globEntries, joinPath, hm]
  | skipFile n ht ih =>
    intro hm
    exact List.mem_append.mpr (Or.inr (ih hm))
  | skipDir d sub ht ih =>
    intro hm
    exact List.mem_append.mpr (Or.inr (ih hm))
  | intoDir d hsub ih =>
    intro hm
    exact List.mem_append.mpr (Or.inl (List.mem_map_of_mem _ (ih hm)))

/-- Claim C8.  Matching is case-insensitive: every file in the forest whose
lower-cased name ends with `.sarif.json` — that is, whose name matches the
SARIF inclusion pattern in any letter case — is included in the discovery
result, as the `ISastFile` built from its resolved path. -/
theorem discovery_matches_case_insensitively (args : SOOSSASTAnalysisArgs)
    (fs : FSTree) (st : ProcState) (ds : List String) (name : String)
    (hf : HasFile fs ds name)
    (hm : endsWithSuffix (lowerStr name) ".sarif.json" = true) :
    ∃ l, (findSASTFiles args fs st).2 = Except.ok l
      ∧ ISastFile.mk
          (basename (pathResolve args.sourceCodePath (joinPath ds name)))
          (pathResolve args.sourceCodePath (joinPath ds name)) ∈ l := by
  have hmem := mem_glob_of_hasFile hf hm
  have hpos : 0 < (globEntries fs).length :=
    List.length_pos.mpr (List.ne_nil_of_mem hmem)
  refine ⟨_, findSASTFiles_ok_of_pos args fs st hpos, ?_⟩
  exact List.mem_map_of_mem _ (List.mem_map_of_mem _ hmem)

/-- Claim C8, witness: a mixed-case file name inside a subdirectory. -/
theorem discovery_matches_case_insensitively_witness :
    ∃ l, (findSASTFiles (SOOSSASTAnalysisArgs.mk "root" [] [])
        (FSTree.dirCons "Sub" (FSTree.fileCons "REPORT.SARIF.Json" FSTree.nil)
          FSTree.nil)
        (ProcState.mk "/")).2 = Except.ok l
      ∧ ISastFile.mk
          (basename (pathResolve "root" (joinPath ["Sub"] "REPORT.SARIF.Json")))
          (pathResolve "root" (joinPath ["Sub"] "REPORT.SARIF.Json")) ∈ l :=
  discovery_matches_case_insensitively (SOOSSASTAnalysisArgs.mk "root" [] [])
    (FSTree.dirCons "Sub" (FSTree.fileCons "REPORT.SARIF.Json" FSTree.nil)
      FSTree.nil)
    (ProcState.mk "/") ["Sub"] "REPORT.SARIF.Json"
    (HasFile.intoDir "Sub" (HasFile.fileHere "REPORT.SARIF.Json" FSTree.nil))
    (by decide)

/-- `find?` returns the first element satisfying the predicate: with a
prefix of non-matching elements, it returns the first match. -/
lemma find?_append_first {q : String → Bool} :
    ∀ (pre : List String) (nm : String) (post : List String),
      (∀ x ∈ pre, q x = false) → q nm = true →
      (pre ++ nm :: post).find? q = some nm := by
  intro pre
  induction pre with
  | nil =>
    intro nm post _ hnm
    simp [List.find?, hnm]
  | cons x pre ih =>
    intro nm post hpre hnm
    have hx : q x = false := hpre x (by simp)
    simp only [List.cons_append, List.find?, hx]
    exact ih nm post (fun y hy => hpre y (by simp [hy])) hnm

/-- Unfolding of the directory branch of `findSASTFilePath`. -/
lemma findSASTFilePath_dir (scp : String) (entries : FSTree) :
    findSASTFilePath scp (PathTarget.dir entries) =
      match (readdirNames entries).find? (fun file => sarifRegexTest file) with
      | some sastFile => Except.ok (pathJoin scp sastFile)
      | none => Except.error "No SAST file found in the directory." := rfl

/-- Claim C10.  The single-file variant `findSASTFilePath`: for a
directory, the result is the join of the directory path with the first
entry, in directory-listing order, whose name passes the SARIF regex; the
result depends only on the immediate entry names (no recursion into
subdirectories, so two directories with identical listings — however their
nested contents differ — yield identical results); and a plain file whose
path fails the regex is an error. -/
theorem findSASTFilePath_first_match_and_file_guard (scp : String)
    (entries : FSTree) (pre : List String) (nm : String)
    (post : List String) :
    (readdirNames entries = pre ++ nm :: post →
        (∀ x ∈ pre, sarifRegexTest x = false) → sarifRegexTest nm = true →
        findSASTFilePath scp (PathTarget.dir entries) =
          Except.ok (pathJoin scp nm))
    ∧ (∀ entries2 : FSTree,
        readdirNames entries = readdirNames entries2 →
        findSASTFilePath scp (PathTarget.dir entries) =
          findSASTFilePath scp (PathTarget.dir entries2))
    ∧ (sarifRegexTest scp = false →
        findSASTFilePath scp PathTarget.file =
          Except.error "The file does not match the required SAST pattern.") := by
  refine ⟨?_, ?_, ?_⟩
  · intro he hpre hnm
    rw [findSASTFilePath_dir, he, find?_append_first pre nm post hpre hnm]
  · intro e2 he
    rw [findSASTFilePath_dir, findSASTFilePath_dir, he]
  · intro hs
    simp [findSASTFilePath, hs]

/-- Claim C10, witness: the first matching entry of a three-entry listing
is returned, and a non-matching plain file is rejected. -/
theorem findSASTFilePath_first_match_and_file_guard_witness :
    (findSASTFilePath "dir"
        (PathTarget.dir (FSTree.fileCons "a.txt"
          (FSTree.fileCons "b.sarif.json"
            (FSTree.fileCons "c.sarif.json" FSTree.nil)))) =
      Except.ok (pathJoin "dir" "b.sarif.json"))
    ∧ (findSASTFilePath "dir/readme.txt" PathTarget.file =
        Except.error "The file does not match the required SAST pattern.") :=
  ⟨(findSASTFilePath_first_match_and_file_guard "dir"
      (FSTree.fileCons "a.txt"
        (FSTree.fileCons "b.sarif.json"
          (FSTree.fileCons "c.sarif.json" FSTree.nil)))
      ["a.txt"] "b.sarif.json" ["c.sarif.json"]).1 rfl (by decide) (by decide),
    (findSASTFilePath_first_match_and_file_guard "dir/readme.txt" FSTree.nil
      [] "" []).2.2 (by decide)⟩

end SoosSast
